/-
Verification development for the multiplexed HTTP/2 / HTTP/3 response
dispatcher of the actix-http crate.

The embedding models:
  * `BodySize` size hints and the `is_eof` predicate;
  * the pure response-head preparers `prepare_response` (HTTP/2,
    `src/actix-http/src/h2/dispatcher.rs`) and `prepare_response_h3`
    (HTTP/3, `src/actix-http/src/h3/dispatcher.rs`);
  * the per-stream pipeline `handle_response` of the HTTP/2 dispatcher,
    with the transport's capacity grants and send outcomes supplied as
    explicit event scripts;
  * the connection dispatch loop `Dispatcher::poll`;
  * the `BodyStream` adapter (`src/actix-http/src/body/body_stream.rs`).

Headers are modelled as an ordered multimap: a list of (lowercase name,
value) pairs, matching the data model of the specification.  Bytes are
natural numbers, chunks are byte lists.  The ambient clock used for date
synthesis is an explicit input (the serialized date string).
-/
import Mathlib

namespace ActixH2

/-- A byte chunk: the contents of one `Bytes` value. -/
abbrev Chunk := List Nat

/-- Body size declaration (`BodySize` in `actix-http`): no body,
declared-empty, known byte length, or streaming/unknown length. -/
inductive BodySize where
  | none
  | empty
  | sized (n : Nat)
  | stream
deriving DecidableEq, Repr

/-- Modelled from the spec: `BodySize::is_eof` lives in the repository's
body module, which is not among the provided sources.  Per §4.4 of the
spec the head send declares "whether the body is empty"; a size hint is
empty exactly when it carries no body bytes: no body, declared-empty, or
a known length of zero. -/
def BodySize.is_eof : BodySize → Bool
  | BodySize.none => true
  | BodySize.empty => true
  | BodySize.sized n => n == 0
  | BodySize.stream => false

/-- Abstract response head: status code plus the ordered header multimap
(lowercase names, duplicates allowed, order preserved). -/
structure ResponseHead where
  status : Nat
  headers : List (String × String)
deriving DecidableEq, Repr

/-- Protocol version stamped on the produced wire head. -/
inductive HttpVersion where
  | http2
  | http3
deriving DecidableEq, Repr

/-- The prepared wire response head (`http::Response<()>`). -/
structure WireResponse where
  status : Nat
  version : HttpVersion
  headers : List (String × String)
deriving DecidableEq, Repr

/-- The header-copy loop of `prepare_response`: iterate the original
headers in order; skip `connection` and `transfer-encoding`; skip
`content-length` when `skip_len` holds; record whether a `date` header
was seen.  Returns the copied headers and the `has_date` flag. -/
def copyHeaders (skip_len : Bool) : List (String × String) → List (String × String) × Bool
  | [] => ([], false)
  | (key, value) :: rest =>
    if key = "connection" ∨ key = "transfer-encoding" then
      copyHeaders skip_len rest
    else if key = "content-length" ∧ skip_len then
      copyHeaders skip_len rest
    else
      let (tl, hasDate) := copyHeaders skip_len rest
      if key = "date" then ((key, value) :: tl, true)
      else ((key, value) :: tl, hasDate)

/-- `prepare_response` of the HTTP/2 dispatcher
(`src/actix-http/src/h2/dispatcher.rs`): pure head preparer.  `config_date`
is the serialized date the service config would write (the ambient clock
as an explicit input).  Returns the wire head and the updated size hint
(the `&mut BodySize` out-parameter). -/
def prepare_response (config_date : String) (head : ResponseHead) (size : BodySize) :
    WireResponse × BodySize :=
  let skip_len0 : Bool := decide (size ≠ BodySize.stream)
  -- the `match head.status` block: status-code overrides of `size` and `skip_len`
  let size' : BodySize :=
    if head.status = 204 ∨ head.status = 100 ∨ head.status = 102 then BodySize.none
    else if head.status = 101 then BodySize.stream
    else size
  let skip_len : Bool := if head.status = 101 then true else skip_len0
  -- the `let _ = match size` block: length-header emission
  let lenHeaders : List (String × String) :=
    match size' with
    | BodySize.none | BodySize.stream => []
    | BodySize.empty => [("content-length", "0")]
    | BodySize.sized len => [("content-length", toString len)]
  let ch := copyHeaders skip_len head.headers
  let dateHeaders : List (String × String) :=
    if ch.2 then [] else [("date", config_date)]
  ({ status := head.status
     version := HttpVersion.http2
     headers := lenHeaders ++ ch.1 ++ dateHeaders }, size')

/-- `prepare_response` of the HTTP/3 dispatcher
(`src/actix-http/src/h3/dispatcher.rs`): identical algorithm, stamping
`HTTP_3` as the version. -/
def prepare_response_h3 (config_date : String) (head : ResponseHead) (size : BodySize) :
    WireResponse × BodySize :=
  let skip_len0 : Bool := decide (size ≠ BodySize.stream)
  -- the `match head.status` block: status-code overrides of `size` and `skip_len`
  let size' : BodySize :=
    if head.status = 204 ∨ head.status = 100 ∨ head.status = 102 then BodySize.none
    else if head.status = 101 then BodySize.stream
    else size
  let skip_len : Bool := if head.status = 101 then true else skip_len0
  -- the `let _ = match size` block: length-header emission
  let lenHeaders : List (String × String) :=
    match size' with
    | BodySize.none | BodySize.stream => []
    | BodySize.empty => [("content-length", "0")]
    | BodySize.sized len => [("content-length", toString len)]
  let ch := copyHeaders skip_len head.headers
  let dateHeaders : List (String × String) :=
    if ch.2 then [] else [("date", config_date)]
  ({ status := head.status
     version := HttpVersion.http3
     headers := lenHeaders ++ ch.1 ++ dateHeaders }, size')

/-- The list of values carried by `content-length` headers, in order. -/
def clValues (headers : List (String × String)) : List String :=
  headers.filterMap (fun kv => if kv.1 = "content-length" then some kv.2 else Option.none)





/-! ## The per-stream pipeline `handle_response` (HTTP/2)

The transport is modelled by explicit event scripts:
  * `caps` — the successive outcomes of `poll_capacity` awaits
    (`closed` = `None`, `failed e` = `Some(Err(e))`, `granted k` = `Some(Ok(k))`);
  * `dres` — the successive outcomes of `send_data` calls
    (`some e` = failure with transport error `e`, `none` = success); an
    exhausted script means further sends succeed;
  * `headRes` — the outcome of `send_response`.
Transport-level (`h2`) errors are identified by numeric codes. -/

/-- One outcome of awaiting `poll_capacity`. -/
inductive CapPoll where
  | closed
  | failed (e : Nat)
  | granted (k : Nat)
deriving DecidableEq, Repr

/-- `DispatchError` of the HTTP/2 dispatcher: the three per-stream error
categories.  `E` is the body producer's error type. -/
inductive DispatchError (E : Type) where
  | sendResponse (e : Nat)
  | sendData (e : Nat)
  | responseBody (e : E)
deriving DecidableEq, Repr

/-- Overall outcome of one `handle_response` run.  `hung` marks a run whose
capacity script was exhausted while the code was still awaiting a grant:
the real future would stay suspended, so no result is observable. -/
inductive H2Result (E : Type) where
  | ok
  | err (e : DispatchError E)
  | hung
deriving DecidableEq, Repr

/-- `CHUNK_SIZE` of `src/actix-http/src/h2/dispatcher.rs`. -/
def CHUNK_SIZE : Nat := 16384

/-- Pop the outcome of the next `send_data` call from the script
(an exhausted script means success). -/
def nextSendResult : List (Option Nat) → Option Nat × List (Option Nat)
  | [] => (Option.none, [])
  | r :: rest => (r, rest)

/-- How the inner send loop of one chunk ended. -/
inductive SendOutcome where
  | chunkDone
  | peerClosed
  | dataFailed (e : Nat)
  | capExhausted
deriving DecidableEq, Repr

/-- Observable trace of the inner (`'send`) loop for one chunk. -/
structure SendLoopOut where
  reservations : List Nat
  frames : List (Chunk × Bool)
  capsLeft : List CapPoll
  dataLeft : List (Option Nat)
  outcome : SendOutcome
deriving DecidableEq, Repr

/-- The inner `'send` loop of `handle_response`: reserve
`min(chunk.len(), CHUNK_SIZE)`, await capacity, split `min(cap, len)`
bytes off the front of the chunk, send them as a non-final data frame,
and repeat until the chunk is empty.  `None` from `poll_capacity` ends
the loop as `peerClosed`; a capacity or send error ends it as
`dataFailed`. -/
def sendLoop : Chunk → List CapPoll → List (Option Nat) → SendLoopOut
  | chunk, [], dres =>
    ⟨[min chunk.length CHUNK_SIZE], [], [], dres, SendOutcome.capExhausted⟩
  | chunk, cap :: caps, dres =>
    let r := min chunk.length CHUNK_SIZE
    match cap with
    | CapPoll.closed => ⟨[r], [], caps, dres, SendOutcome.peerClosed⟩
    | CapPoll.failed e => ⟨[r], [], caps, dres, SendOutcome.dataFailed e⟩
    | CapPoll.granted k =>
      let len := chunk.length
      let bytes := chunk.take (min k len)
      let rest := chunk.drop (min k len)
      let sres := (nextSendResult dres).1
      let dtl := (nextSendResult dres).2
      match sres with
      | some e => ⟨[r], [(bytes, false)], caps, dtl, SendOutcome.dataFailed e⟩
      | Option.none =>
        if rest.isEmpty then ⟨[r], [(bytes, false)], caps, dtl, SendOutcome.chunkDone⟩
        else
          let out := sendLoop rest caps dtl
          ⟨r :: out.reservations, (bytes, false) :: out.frames,
            out.capsLeft, out.dataLeft, out.outcome⟩

/-- Observable trace of the body-streaming phase of `handle_response`. -/
structure BodyPhase (E : Type) where
  reservations : List Nat
  frames : List (Chunk × Bool)
  bodyPolls : Nat
  closed : Bool
  result : H2Result E
deriving DecidableEq, Repr

/-- The outer `while let` loop of `handle_response` plus the final
end-of-stream frame: poll the body (one list item per poll, the list's
end being the terminal `None`), run the send loop for each chunk, and on
normal exhaustion send a final empty frame with the end-of-stream flag.
`closed` records whether the run ended through the `poll_capacity ==
None` arm. -/
def respBody {E : Type} : List (Except E Chunk) → List CapPoll → List (Option Nat) →
    BodyPhase E
  | [], _, dres =>
    match (nextSendResult dres).1 with
    | some e => ⟨[], [([], true)], 1, false, H2Result.err (DispatchError.sendData e)⟩
    | Option.none => ⟨[], [([], true)], 1, false, H2Result.ok⟩
  | Except.error e :: _, _, _ =>
    ⟨[], [], 1, false, H2Result.err (DispatchError.responseBody e)⟩
  | Except.ok chunk :: rest, caps, dres =>
    let out := sendLoop chunk caps dres
    match out.outcome with
    | SendOutcome.chunkDone =>
      let cont := respBody rest out.capsLeft out.dataLeft
      ⟨out.reservations ++ cont.reservations, out.frames ++ cont.frames,
        1 + cont.bodyPolls, cont.closed, cont.result⟩
    | SendOutcome.peerClosed =>
      ⟨out.reservations, out.frames, 1, true, H2Result.ok⟩
    | SendOutcome.dataFailed e =>
      ⟨out.reservations, out.frames, 1, false, H2Result.err (DispatchError.sendData e)⟩
    | SendOutcome.capExhausted =>
      ⟨out.reservations, out.frames, 1, false, H2Result.hung⟩

/-- Full observable trace of one `handle_response` run.  `headSent`
records the argument pair of the `send_response` call (prepared head and
eof flag). -/
structure H2Trace (E : Type) where
  headSent : Option (WireResponse × Bool)
  reservations : List Nat
  frames : List (Chunk × Bool)
  bodyPolls : Nat
  closed : Bool
  result : H2Result E
deriving DecidableEq, Repr

/-- `handle_response` of the HTTP/2 dispatcher: prepare the head, send it
with the eof flag, return immediately on eof, otherwise stream the body
under flow control.  `size` is the value of `body.size()`. -/
def handle_response {E : Type} (config_date : String) (head : ResponseHead)
    (size : BodySize) (body : List (Except E Chunk)) (headRes : Option Nat)
    (caps : List CapPoll) (dres : List (Option Nat)) : H2Trace E :=
  let pr := prepare_response config_date head size
  let res := pr.1
  let eof := pr.2.is_eof
  match headRes with
  | some e =>
    ⟨some (res, eof), [], [], 0, false, H2Result.err (DispatchError.sendResponse e)⟩
  | Option.none =>
    if eof then
      ⟨some (res, eof), [], [], 0, false, H2Result.ok⟩
    else
      let bp := respBody body caps dres
      ⟨some (res, eof), bp.reservations, bp.frames, bp.bodyPolls, bp.closed, bp.result⟩







/-! ## The connection dispatch loop (`Dispatcher::poll`) -/

instance {α β : Type} [DecidableEq α] [DecidableEq β] : DecidableEq (Except α β)
  | Except.ok a, Except.ok b =>
    if h : a = b then isTrue (by rw [h]) else isFalse (by intro hc; cases hc; exact h rfl)
  | Except.ok _, Except.error _ => isFalse (by intro h; cases h)
  | Except.error _, Except.ok _ => isFalse (by intro h; cases h)
  | Except.error a, Except.error b =>
    if h : a = b then isTrue (by rw [h]) else isFalse (by intro hc; cases hc; exact h rfl)

/-- One outcome of `poll_accept`, paired (for accepted streams) with
everything the spawned pipeline will consume: the response the service
produces for that stream and the stream's transport scripts.  The end of
the event list is `poll_accept` returning `None` (no more streams). -/
inductive AcceptEvent (E : Type) where
  | accepted (head : ResponseHead) (size : BodySize) (body : List (Except E Chunk))
      (headRes : Option Nat) (caps : List CapPoll) (dres : List (Option Nat))
  | acceptError (e : Nat)
deriving DecidableEq, Repr

/-- Whether an accept event is an accept-level transport error. -/
def AcceptEvent.isErr {E : Type} : AcceptEvent E → Bool
  | AcceptEvent.acceptError _ => true
  | AcceptEvent.accepted _ _ _ _ _ _ => false

/-- Observable outcome of the dispatch loop: the traces of the spawned
per-stream pipelines (whose results are only logged) and the loop's own
result. -/
structure DispatchOut (E : Type) where
  spawned : List (H2Trace E)
  result : Except Nat Unit
deriving DecidableEq, Repr

/-- The `loop` of `Dispatcher::poll`: `None` from `poll_accept` returns
`Ok(())`; `Some(Err(err))` returns that error; `Some(Ok(..))` spawns a
pipeline running `handle_response` (whose result is only logged) and
continues accepting. -/
def dispatcher_poll {E : Type} (config_date : String) :
    List (AcceptEvent E) → DispatchOut E
  | [] => ⟨[], Except.ok ()⟩
  | AcceptEvent.acceptError e :: _ => ⟨[], Except.error e⟩
  | AcceptEvent.accepted head size body headRes caps dres :: rest =>
    let tr := handle_response config_date head size body headRes caps dres
    let out := dispatcher_poll config_date rest
    ⟨tr :: out.spawned, out.result⟩

/-! ## The `BodyStream` adapter (`src/actix-http/src/body/body_stream.rs`) -/

/-- `BodyStream::poll_next`: poll the wrapped sequence in a loop, skipping
`Ok` chunks of zero length, and return the first other outcome together
with the rest of the wrapped sequence (`none` = the wrapped sequence
ended). -/
def bodyStreamPollNext {E : Type} :
    List (Except E Chunk) → Option (Except E Chunk) × List (Except E Chunk)
  | [] => (Option.none, [])
  | Except.ok bytes :: rest =>
    if bytes.isEmpty then bodyStreamPollNext rest
    else (some (Except.ok bytes), rest)
  | Except.error e :: rest => (some (Except.error e), rest)

/-- The sequence of items observable through repeated
`BodyStream::poll_next` calls, drained to the end signal. -/
def bodyStreamDrain {E : Type} (s : List (Except E Chunk)) : List (Except E Chunk) :=
  match h : bodyStreamPollNext s with
  | (Option.none, _) => []
  | (some item, rest) => item :: bodyStreamDrain rest
termination_by s.length
decreasing_by
  induction s with
  | nil => simp [bodyStreamPollNext] at h
  | cons hd tl ih =>
    cases hd with
    | ok bytes =>
      by_cases hb : bytes.isEmpty
      · simp only [bodyStreamPollNext, hb, if_true] at h
        exact Nat.lt_trans (ih h) (Nat.lt_succ_self _)
      · simp [bodyStreamPollNext, hb] at h
        simp [h.2]
    | error e =>
      simp [bodyStreamPollNext] at h
      simp [h.2]


/-- Statement helper, following the claim's wording: the lengths of the
successive data frames for one chunk — each frame takes
`min(granted capacity, remaining length)` bytes — stopping once the
remaining length reaches zero. -/
def grantLens : List Nat → Nat → List Nat
  | [], _ => []
  | k :: ks, rem =>
    let t := min k rem
    if rem - t = 0 then [t] else t :: grantLens ks (rem - t)

/-- Statement helper, following the claim's wording: the successive
capacity reservations for one chunk — each `min(remaining length,
CHUNK_SIZE)`. -/
def reserveLens : List Nat → Nat → List Nat
  | [], _ => []
  | k :: ks, rem =>
    let t := min k rem
    if rem - t = 0 then [min rem CHUNK_SIZE]
    else min rem CHUNK_SIZE :: reserveLens ks (rem - t)

/-! ## Auxiliary lemmas -/

theorem clValues_append (a b : List (String × String)) :
    clValues (a ++ b) = clValues a ++ clValues b := by
  simp [clValues, List.filterMap_append]

theorem clValues_copyHeaders_true (l : List (String × String)) :
    clValues ((copyHeaders true l).1) = [] := by
  induction l with
  | nil => simp [copyHeaders, clValues]
  | cons hd tl ih =>
    obtain ⟨key, value⟩ := hd
    by_cases h1 : key = "connection" ∨ key = "transfer-encoding"
    · simpa [copyHeaders, h1] using ih
    · by_cases h2 : key = "content-length"
      · simpa [copyHeaders, h1, h2] using ih
      · by_cases h3 : key = "date" <;>
          simpa [copyHeaders, h1, h2, h3, clValues] using ih

theorem clValues_copyHeaders_false (l : List (String × String)) :
    clValues ((copyHeaders false l).1) = clValues l := by
  induction l with
  | nil => simp [copyHeaders, clValues]
  | cons hd tl ih =>
    obtain ⟨key, value⟩ := hd
    by_cases h1 : key = "connection" ∨ key = "transfer-encoding"
    · have hk : key ≠ "content-length" := by
        rcases h1 with h | h <;> (subst h; decide)
      simp [copyHeaders, h1, clValues, hk]
      simpa [clValues] using ih
    · by_cases h3 : key = "date"
      · subst h3
        simp [copyHeaders, h1, clValues]
        simpa [clValues] using ih
      · by_cases h2 : key = "content-length" <;>
          · simp [copyHeaders, h1, h2, h3, clValues]
            simpa [clValues] using ih

theorem clValues_copyHeaders (skip : Bool) (l : List (String × String)) :
    clValues ((copyHeaders skip l).1) = if skip then [] else clValues l := by
  cases skip
  · simp [clValues_copyHeaders_false]
  · simp [clValues_copyHeaders_true]

theorem clValues_nil : clValues [] = ([] : List String) := rfl

theorem clValues_single_cl (v : String) : clValues [("content-length", v)] = [v] := by
  simp [clValues]

theorem clValues_cons_cl (v : String) (rest : List (String × String)) :
    clValues (("content-length", v) :: rest) = v :: clValues rest := by
  simp [clValues]

theorem clValues_date_synth (b : Bool) (d : String) :
    clValues (if b then ([] : List (String × String)) else [("date", d)]) = [] := by
  cases b <;> simp [clValues]

theorem mem_fst_of_clValues_ne (hs : List (String × String))
    (h : "content-length" ∈ hs.map Prod.fst) : clValues hs ≠ [] := by
  induction hs with
  | nil => simp at h
  | cons hd tl ih =>
    obtain ⟨key, value⟩ := hd
    simp only [List.map_cons, List.mem_cons] at h
    rcases h with hk | hk
    · simp [clValues, ← hk]
    · by_cases hkey : key = "content-length"
      · simp [clValues, hkey]
      · simpa [clValues, hkey] using ih hk

/-! ## Claims about the response-head preparer -/

/-- C1 (counterexample): with input size hint `Stream` and a normal status,
`prepare_response` leaves the size hint at `Stream` — so the length header
is suppressed — yet an original `content-length` header survives into the
prepared head, contradicting the claim that every content-length header is
dropped whenever length is suppressed. -/
theorem prepare_response_stream_hint_keeps_content_length :
    (prepare_response "Thu, 01 Jan 1970 00:00:00 GMT"
        ⟨200, [("content-length", "5")]⟩ BodySize.stream).2 = BodySize.stream ∧
    "content-length" ∈ ((prepare_response "Thu, 01 Jan 1970 00:00:00 GMT"
        ⟨200, [("content-length", "5")]⟩ BodySize.stream).1.headers.map Prod.fst) := by
  decide

/-- C1 (amended): whenever the length-emission step suppresses the length
header (the size after status-code overrides is `None` or `Stream`) and,
in addition, the pre-override size hint was not `Stream` or the status is
101, `prepare_response` drops every content-length header of the original
headers, so the prepared head contains no content-length header.  (When
the pre-override hint is `Stream` and the status is not 101, original
content-length headers are retained.) -/
theorem prepare_response_suppressed_length_drops_content_length
    (config_date : String) (head : ResponseHead) (size : BodySize)
    (hsup : (prepare_response config_date head size).2 = BodySize.none ∨
      (prepare_response config_date head size).2 = BodySize.stream)
    (hpre : size ≠ BodySize.stream ∨ head.status = 101) :
    "content-length" ∉
      ((prepare_response config_date head size).1.headers.map Prod.fst) := by
  intro hmem
  apply mem_fst_of_clValues_ne _ hmem
  have hskip : (if head.status = 101 then true
      else decide (size ≠ BodySize.stream)) = true := by
    rcases hpre with h | h
    · simp [h]
    · simp [h]
  simp only [prepare_response] at hsup ⊢
  rw [clValues_append, clValues_append, hskip, clValues_copyHeaders_true]
  have hdate : ∀ b : Bool,
      clValues (if b then ([] : List (String × String))
        else [("date", config_date)]) = [] := by
    intro b; cases b <;> simp [clValues]
  rw [hdate]
  rcases hsup with h | h <;>
    · rw [h]
      simp [clValues]

/-- C1 (witness). -/
theorem prepare_response_suppressed_length_drops_content_length_witness :
    "content-length" ∉
      ((prepare_response "D" ⟨204, [("content-length", "5")]⟩
          (BodySize.sized 5)).1.headers.map Prod.fst) :=
  prepare_response_suppressed_length_drops_content_length "D"
    ⟨204, [("content-length", "5")]⟩ (BodySize.sized 5)
    (Or.inl (by decide)) (Or.inl (by decide))

/-- C4 (counterexample): for status 204 the effective size is forced to
`None`, yet with input size hint `Stream` the prepared head still carries
a content-length header copied from the original headers — refuting "the
prepared head carries no content-length header regardless of the input
hint". -/
theorem prepare_response_204_stream_hint_keeps_content_length :
    (prepare_response "D" ⟨204, [("content-length", "7")]⟩ BodySize.stream).2 =
      BodySize.none ∧
    "content-length" ∈ ((prepare_response "D" ⟨204, [("content-length", "7")]⟩
        BodySize.stream).1.headers.map Prod.fst) := by
  decide

/-- C4 (amended): the effective size is the input hint overridden by the
status code (204/100/102 force `None`; 101 forces `Stream`), and the
content-length values of the prepared head are determined by the effective
size: `Empty` emits exactly `"0"`, `Sized n` emits exactly `n` in decimal
ASCII, and `None`/`Stream` emit no length header — with original
content-length headers retained (rather than dropped) exactly when the
input hint was `Stream` and the status is not 101. -/
theorem prepare_response_length_emission
    (config_date : String) (head : ResponseHead) (size : BodySize) :
    (prepare_response config_date head size).2 =
      (if head.status = 204 ∨ head.status = 100 ∨ head.status = 102 then BodySize.none
       else if head.status = 101 then BodySize.stream
       else size) ∧
    clValues (prepare_response config_date head size).1.headers =
      (match (prepare_response config_date head size).2 with
       | BodySize.empty => ["0"]
       | BodySize.sized n => [toString n]
       | BodySize.none | BodySize.stream =>
         if size = BodySize.stream ∧ head.status ≠ 101 then clValues head.headers
         else []) := by
  constructor
  · simp [prepare_response]
  · by_cases h1 : head.status = 204 ∨ head.status = 100 ∨ head.status = 102
    · have h101 : head.status ≠ 101 := by
        rcases h1 with h | h | h <;> simp [h]
      by_cases hs : size = BodySize.stream
      · subst hs
        simp [prepare_response, clValues_append, clValues_copyHeaders, h1, h101,
          clValues_date_synth, clValues_nil]
      · simp [prepare_response, clValues_append, clValues_copyHeaders, h1, h101,
          hs, clValues_date_synth, clValues_nil]
    · by_cases h2 : head.status = 101
      · simp [prepare_response, clValues_append, clValues_copyHeaders, h1, h2,
          clValues_date_synth, clValues_nil]
      · by_cases hs : size = BodySize.stream
        · subst hs
          simp [prepare_response, clValues_append, clValues_copyHeaders, h1, h2,
            clValues_date_synth, clValues_nil]
        · cases size with
          | none =>
            simp [prepare_response, clValues_append, clValues_copyHeaders, h1, h2,
              clValues_date_synth, clValues_nil]
          | empty =>
            simp [prepare_response, clValues_append, clValues_copyHeaders, h1, h2,
              clValues_date_synth, clValues_nil, clValues_cons_cl]
          | sized n =>
            simp [prepare_response, clValues_append, clValues_copyHeaders, h1, h2,
              clValues_date_synth, clValues_nil, clValues_cons_cl]
          | stream => exact absurd rfl hs

/-- C10: on identical config, head and size-hint inputs the HTTP/2 and
HTTP/3 preparers produce the same status, the same ordered header
multimap, and the same final size hint, differing only in the stamped
protocol version. -/
theorem prepare_response_h2_h3_agree
    (config_date : String) (head : ResponseHead) (size : BodySize) :
    (prepare_response config_date head size).1.status =
      (prepare_response_h3 config_date head size).1.status ∧
    (prepare_response config_date head size).1.headers =
      (prepare_response_h3 config_date head size).1.headers ∧
    (prepare_response config_date head size).2 =
      (prepare_response_h3 config_date head size).2 ∧
    (prepare_response config_date head size).1.version = HttpVersion.http2 ∧
    (prepare_response_h3 config_date head size).1.version = HttpVersion.http3 := by
  refine ⟨?_, ?_, ?_, ?_, ?_⟩ <;> simp [prepare_response, prepare_response_h3]

/-! ## Claims about the `BodyStream` adapter -/

theorem bodyStreamDrain_pollNext_none {E : Type} (s : List (Except E Chunk))
    (r : List (Except E Chunk)) (h : bodyStreamPollNext s = (Option.none, r)) :
    bodyStreamDrain s = [] := by
  rw [bodyStreamDrain]
  split
  · rfl
  · next item rest heq =>
      rw [h] at heq
      cases heq

theorem bodyStreamDrain_pollNext_some {E : Type} (s : List (Except E Chunk))
    (item : Except E Chunk) (rest : List (Except E Chunk))
    (h : bodyStreamPollNext s = (some item, rest)) :
    bodyStreamDrain s = item :: bodyStreamDrain rest := by
  rw [bodyStreamDrain]
  split
  · next r heq =>
      rw [h] at heq
      cases heq
  · next item' rest' heq =>
      rw [h] at heq
      injection heq with h1 h2
      injection h1 with h1
      subst h1
      subst h2
      rfl

theorem bodyStreamDrain_nil {E : Type} :
    bodyStreamDrain ([] : List (Except E Chunk)) = [] :=
  bodyStreamDrain_pollNext_none [] [] rfl

theorem bodyStreamDrain_cons_empty {E : Type} (bytes : Chunk)
    (tl : List (Except E Chunk)) (hb : bytes.isEmpty = true) :
    bodyStreamDrain (Except.ok bytes :: tl) = bodyStreamDrain tl := by
  have hpn : bodyStreamPollNext (Except.ok bytes :: tl) = bodyStreamPollNext tl := by
    simp [bodyStreamPollNext, hb]
  rcases h : bodyStreamPollNext tl with ⟨o, rest⟩
  cases o with
  | none =>
    rw [bodyStreamDrain_pollNext_none _ rest (hpn.trans h),
      bodyStreamDrain_pollNext_none _ rest h]
  | some item =>
    rw [bodyStreamDrain_pollNext_some _ item rest (hpn.trans h),
      bodyStreamDrain_pollNext_some _ item rest h]

theorem bodyStreamDrain_cons_ok {E : Type} (bytes : Chunk)
    (tl : List (Except E Chunk)) (hb : bytes.isEmpty = false) :
    bodyStreamDrain (Except.ok bytes :: tl) =
      Except.ok bytes :: bodyStreamDrain tl := by
  apply bodyStreamDrain_pollNext_some
  simp [bodyStreamPollNext, hb]

theorem bodyStreamDrain_cons_error {E : Type} (e : E)
    (tl : List (Except E Chunk)) :
    bodyStreamDrain (Except.error e :: tl) =
      Except.error e :: bodyStreamDrain tl :=
  bodyStreamDrain_pollNext_some _ _ tl rfl

/-- C3: the sequence of items observable through `BodyStream::poll_next`
is the wrapped sequence with every zero-length `Ok` chunk removed, in the
original relative order; errors and the end-of-sequence signal are
forwarded unchanged. -/
theorem bodyStream_skips_exactly_empty_chunks {E : Type}
    (s : List (Except E Chunk)) :
    bodyStreamDrain s =
      s.filter (fun item =>
        match item with
        | Except.ok bytes => !bytes.isEmpty
        | Except.error _ => true) := by
  induction s with
  | nil => simp [bodyStreamDrain_nil]
  | cons hd tl ih =>
    match hd with
    | Except.ok bytes =>
      cases hb : bytes.isEmpty with
      | true => rw [bodyStreamDrain_cons_empty bytes tl hb]; simp [hb, ih]
      | false => rw [bodyStreamDrain_cons_ok bytes tl hb]; simp [hb, ih]
    | Except.error e =>
      rw [bodyStreamDrain_cons_error e tl]; simp [ih]

/-! ## Claims about the per-stream pipeline -/

/-- C7: when the effective size after preparation is at end-of-file,
`handle_response` (with the head send succeeding) sends the prepared head
with the eof flag set and returns success immediately: no body poll, no
reservation, no data frame. -/
theorem handle_response_eof_no_body_phase {E : Type} (config_date : String)
    (head : ResponseHead) (size : BodySize) (body : List (Except E Chunk))
    (caps : List CapPoll) (dres : List (Option Nat))
    (heof : ((prepare_response config_date head size).2).is_eof = true) :
    handle_response config_date head size body Option.none caps dres =
      ⟨some ((prepare_response config_date head size).1, true), [], [], 0, false,
        H2Result.ok⟩ := by
  simp [handle_response, heof]

/-- C7 (witness). -/
theorem handle_response_eof_no_body_phase_witness :
    handle_response (E := Nat) "D" ⟨200, []⟩ BodySize.empty [Except.ok [1]]
        Option.none [] [] =
      ⟨some ((prepare_response "D" ⟨200, []⟩ BodySize.empty).1, true), [], [], 0, false,
        H2Result.ok⟩ :=
  handle_response_eof_no_body_phase "D" ⟨200, []⟩ BodySize.empty [Except.ok [1]] [] []
    (by decide)

/-- C8: a zero-length chunk produced by the body is sent as an explicit
non-final empty data frame (consuming one capacity grant, with a
reservation of `min(0, CHUNK_SIZE) = 0`), after which the pipeline
proceeds to poll the body for the next chunk. -/
theorem respBody_empty_chunk_sends_empty_frame {E : Type}
    (rest : List (Except E Chunk)) (k : Nat) (caps : List CapPoll)
    (dres dtl : List (Option Nat))
    (hsend : nextSendResult dres = (Option.none, dtl)) :
    respBody (Except.ok [] :: rest) (CapPoll.granted k :: caps) dres =
      ⟨0 :: (respBody rest caps dtl).reservations,
        ([], false) :: (respBody rest caps dtl).frames,
        1 + (respBody rest caps dtl).bodyPolls,
        (respBody rest caps dtl).closed,
        (respBody rest caps dtl).result⟩ := by
  simp [respBody, sendLoop, hsend, CHUNK_SIZE]

/-- C8 (witness). -/
theorem respBody_empty_chunk_sends_empty_frame_witness :
    respBody (E := Nat) [Except.ok []] [CapPoll.granted 3] [] =
      ⟨[0], [([], false), ([], true)], 2, false, H2Result.ok⟩ := by
  rw [respBody_empty_chunk_sends_empty_frame [] 3 [] [] [] rfl]
  decide

/-- C9: terminal body signals are final for the pipeline.  (1) Items of
the body after its first producer failure never influence the run: the
pipeline stops at the failure, so the body is never polled past it.
(2) At the failure the pipeline returns the body-producer error with no
further data frame and no reservation.  (3) On the finished signal the
pipeline sends exactly one final empty end-of-stream frame, making no
further body poll and no reservation. -/
theorem respBody_terminal_signals_final {E : Type} :
    (∀ (pre : List (Except E Chunk)) (e : E) (post post' : List (Except E Chunk))
        (caps : List CapPoll) (dres : List (Option Nat)),
        respBody (pre ++ Except.error e :: post) caps dres =
          respBody (pre ++ Except.error e :: post') caps dres) ∧
    (∀ (e : E) (post : List (Except E Chunk)) (caps : List CapPoll)
        (dres : List (Option Nat)),
        respBody (Except.error e :: post) caps dres =
          ⟨[], [], 1, false, H2Result.err (DispatchError.responseBody e)⟩) ∧
    (∀ (caps : List CapPoll) (dres : List (Option Nat)),
        (respBody ([] : List (Except E Chunk)) caps dres).frames = [([], true)] ∧
        (respBody ([] : List (Except E Chunk)) caps dres).bodyPolls = 1 ∧
        (respBody ([] : List (Except E Chunk)) caps dres).reservations = []) := by
  refine ⟨?_, ?_, ?_⟩
  · intro pre e post post' caps dres
    induction pre generalizing caps dres with
    | nil => rfl
    | cons hd tl ih =>
      match hd with
      | Except.ok chunk =>
        simp only [List.cons_append, respBody]
        cases houtcome : (sendLoop chunk caps dres).outcome <;> simp [houtcome, ih]
      | Except.error e' => rfl
  · intro e post caps dres
    rfl
  · intro caps dres
    cases h : (nextSendResult dres).1 <;> simp [respBody, h]

/-- Every data frame emitted by the inner send loop is non-final. -/
theorem sendLoop_frames_nonfinal (chunk : Chunk) (caps : List CapPoll)
    (dres : List (Option Nat)) :
    ∀ f ∈ (sendLoop chunk caps dres).frames, f.2 = false := by
  induction caps generalizing chunk dres with
  | nil => simp [sendLoop]
  | cons cap caps ih =>
    cases cap with
    | closed => simp [sendLoop]
    | failed e => simp [sendLoop]
    | granted k =>
      cases hs : (nextSendResult dres).1 with
      | some e => simp [sendLoop, hs]
      | none =>
        cases hre : (chunk.drop (min k chunk.length)).isEmpty with
        | true => simp [sendLoop, hs, hre]
        | false =>
          simp only [sendLoop, hs, hre, Bool.false_eq_true, if_false,
            List.mem_cons]
          intro f hf
          rcases hf with hf | hf
          · rw [hf]
          · exact ih _ _ f hf

/-- C2: for a non-empty chunk and capacity grants summing to at least its
length (all sends succeeding), the inner send loop finishes the chunk,
the concatenation of the emitted frames is exactly the original chunk (in
order, no gaps, no overlaps, each frame taken from the front), every
frame is non-final, the frame lengths are `min(granted, remaining)`, and
every reservation is `min(remaining, CHUNK_SIZE)`. -/
theorem sendLoop_chunk_conservation (chunk : Chunk) (ks : List Nat)
    (hne : chunk ≠ []) (hsum : chunk.length ≤ ks.sum) :
    (sendLoop chunk (ks.map CapPoll.granted) []).outcome = SendOutcome.chunkDone ∧
    ((sendLoop chunk (ks.map CapPoll.granted) []).frames.map Prod.fst).flatten = chunk ∧
    (∀ f ∈ (sendLoop chunk (ks.map CapPoll.granted) []).frames, f.2 = false) ∧
    (sendLoop chunk (ks.map CapPoll.granted) []).frames.map (fun f => f.1.length) =
      grantLens ks chunk.length ∧
    (sendLoop chunk (ks.map CapPoll.granted) []).reservations =
      reserveLens ks chunk.length := by
  revert hne hsum
  induction ks generalizing chunk with
  | nil =>
    intro hne hsum
    exfalso
    have hz : chunk.length = 0 := Nat.le_antisymm (by simpa using hsum) (Nat.zero_le _)
    exact hne (List.length_eq_zero.mp hz)
  | cons k ks ih =>
    intro hne hsum
    have hlen : 0 < chunk.length := List.length_pos.mpr hne
    by_cases hkl : chunk.length ≤ k
    · have hmin : min k chunk.length = chunk.length := by omega
      have hrest : chunk.drop (min k chunk.length) = [] := by
        rw [hmin]
        exact List.drop_length chunk
      refine ⟨?_, ?_, ?_, ?_, ?_⟩ <;>
        simp [sendLoop, nextSendResult, hrest, hmin, List.take_length,
          grantLens, reserveLens, Nat.sub_self, List.take_of_length_le]
    · push_neg at hkl
      have hmin : min k chunk.length = k := by omega
      have hrlen : (chunk.drop k).length = chunk.length - k := by simp
      have hrne : chunk.drop k ≠ [] := by
        intro hnil
        have := congrArg List.length hnil
        simp at this
        omega
      have hsum' : (chunk.drop k).length ≤ ks.sum := by
        have : chunk.length ≤ k + ks.sum := by simpa using hsum
        omega
      obtain ⟨o1, o2, o3, o4, o5⟩ := ih (chunk.drop k) hrne hsum'
      have hempty : (chunk.drop k).isEmpty = false := by
        cases h : chunk.drop k with
        | nil => exact absurd h hrne
        | cons a l => rfl
      have hg : grantLens (k :: ks) chunk.length =
          k :: grantLens ks (chunk.length - k) := by
        rw [grantLens]
        have ht : min k chunk.length = k := hmin
        simp only [ht]
        rw [if_neg (by omega)]
      have hr : reserveLens (k :: ks) chunk.length =
          min chunk.length CHUNK_SIZE :: reserveLens ks (chunk.length - k) := by
        rw [reserveLens]
        simp only [hmin]
        rw [if_neg (by omega)]
      refine ⟨?_, ?_, ?_, ?_, ?_⟩
      · simp only [List.map_cons, sendLoop, nextSendResult, hmin, hempty,
          Bool.false_eq_true, if_false]
        exact o1
      · simp only [List.map_cons, sendLoop, nextSendResult, hmin, hempty,
          Bool.false_eq_true, if_false, List.map, List.flatten]
        rw [o2, List.take_append_drop]
      · simp only [List.map_cons, sendLoop, nextSendResult, hmin, hempty,
          Bool.false_eq_true, if_false, List.mem_cons]
        intro f hf
        rcases hf with hf | hf
        · rw [hf]
        · exact o3 f hf
      · simp only [List.map_cons, sendLoop, nextSendResult, hmin, hempty,
          Bool.false_eq_true, if_false, List.map]
        rw [hg, o4, hrlen]
        simp [List.length_take]
        omega
      · simp only [List.map_cons, sendLoop, nextSendResult, hmin, hempty,
          Bool.false_eq_true, if_false]
        rw [hr, o5, hrlen]

/-- C2 (witness). -/
theorem sendLoop_chunk_conservation_witness :
    (sendLoop [1, 2] ([1, 5].map CapPoll.granted) []).outcome =
      SendOutcome.chunkDone ∧
    ((sendLoop [1, 2] ([1, 5].map CapPoll.granted) []).frames.map Prod.fst).flatten =
      [1, 2] ∧
    (∀ f ∈ (sendLoop [1, 2] ([1, 5].map CapPoll.granted) []).frames, f.2 = false) ∧
    (sendLoop [1, 2] ([1, 5].map CapPoll.granted) []).frames.map
        (fun f => f.1.length) = grantLens [1, 5] ([1, 2] : Chunk).length ∧
    (sendLoop [1, 2] ([1, 5].map CapPoll.granted) []).reservations =
      reserveLens [1, 5] ([1, 2] : Chunk).length :=
  sendLoop_chunk_conservation [1, 2] [1, 5] (by decide) (by decide)

/-- If the body phase ended through the `poll_capacity == None` arm (peer
closed the stream), its result is success and no end-of-stream frame was
sent. -/
theorem respBody_closed_clean {E : Type} (body : List (Except E Chunk))
    (caps : List CapPoll) (dres : List (Option Nat))
    (hclosed : (respBody body caps dres).closed = true) :
    (respBody body caps dres).result = H2Result.ok ∧
    ∀ f ∈ (respBody body caps dres).frames, f.2 = false := by
  induction body generalizing caps dres with
  | nil =>
    exfalso
    cases h : (nextSendResult dres).1 <;> simp [respBody, h] at hclosed
  | cons hd tl ih =>
    match hd with
    | Except.error e => simp [respBody] at hclosed
    | Except.ok chunk =>
      cases houtcome : (sendLoop chunk caps dres).outcome with
      | chunkDone =>
        simp only [respBody, houtcome] at hclosed ⊢
        obtain ⟨r1, r2⟩ := ih _ _ hclosed
        refine ⟨r1, ?_⟩
        intro f hf
        rcases List.mem_append.mp hf with hf | hf
        · exact sendLoop_frames_nonfinal chunk caps dres f hf
        · exact r2 f hf
      | peerClosed =>
        refine ⟨by simp [respBody, houtcome], ?_⟩
        simp only [respBody, houtcome]
        intro f hf
        exact sendLoop_frames_nonfinal chunk caps dres f hf
      | dataFailed e => simp [respBody, houtcome] at hclosed
      | capExhausted => simp [respBody, houtcome] at hclosed

/-- C5: after a successful head send, if awaiting a capacity grant yields
no grant (the peer closed or reset the stream), `handle_response` stops
and returns success: no dispatch-error outcome, and no end-of-stream
frame is ever sent in such a run. -/
theorem handle_response_peer_closed_clean {E : Type} (config_date : String)
    (head : ResponseHead) (size : BodySize) (body : List (Except E Chunk))
    (caps : List CapPoll) (dres : List (Option Nat))
    (hclosed :
      (handle_response config_date head size body Option.none caps dres).closed =
        true) :
    (handle_response config_date head size body Option.none caps dres).result =
      H2Result.ok ∧
    ∀ f ∈ (handle_response config_date head size body Option.none caps dres).frames,
      f.2 = false := by
  cases heof : ((prepare_response config_date head size).2).is_eof with
  | true => simp [handle_response, heof] at hclosed
  | false =>
    simp only [handle_response, heof, Bool.false_eq_true, if_false] at hclosed ⊢
    exact respBody_closed_clean body caps dres hclosed

/-- C5 (witness). -/
theorem handle_response_peer_closed_clean_witness :
    (handle_response (E := Nat) "D" ⟨200, []⟩ BodySize.stream [Except.ok [1, 2]]
        Option.none [CapPoll.closed] []).result = H2Result.ok :=
  (handle_response_peer_closed_clean "D" ⟨200, []⟩ BodySize.stream [Except.ok [1, 2]]
    [CapPoll.closed] [] (by decide)).1

/-! ## Claims about the connection dispatch loop -/

/-- C6: the dispatch loop's own outcome depends only on stream acceptance.
(1) When no accept-level error occurs it returns success, having spawned
one pipeline per accepted stream, whatever those pipelines did.  (2) When
acceptance fails it returns exactly that error, having spawned a pipeline
for every previously accepted stream.  (3) Accepting a stream spawns its
pipeline and continues the loop on the remaining events — the spawned
pipeline's outcome (including head-send, data-send and body-producer
failures, which are only logged) never influences the loop's result or
later acceptances. -/
theorem dispatcher_poll_isolation {E : Type} (config_date : String) :
    (∀ events : List (AcceptEvent E),
        (∀ ev ∈ events, ev.isErr = false) →
        (dispatcher_poll config_date events).result = Except.ok () ∧
        (dispatcher_poll config_date events).spawned.length = events.length) ∧
    (∀ (pre : List (AcceptEvent E)) (e : Nat) (post : List (AcceptEvent E)),
        (∀ ev ∈ pre, ev.isErr = false) →
        (dispatcher_poll config_date
            (pre ++ AcceptEvent.acceptError e :: post)).result = Except.error e ∧
        (dispatcher_poll config_date
            (pre ++ AcceptEvent.acceptError e :: post)).spawned.length = pre.length) ∧
    (∀ (head : ResponseHead) (size : BodySize) (body : List (Except E Chunk))
        (headRes : Option Nat) (caps : List CapPoll) (dres : List (Option Nat))
        (rest : List (AcceptEvent E)),
        dispatcher_poll config_date
            (AcceptEvent.accepted head size body headRes caps dres :: rest) =
          ⟨handle_response config_date head size body headRes caps dres ::
              (dispatcher_poll config_date rest).spawned,
            (dispatcher_poll config_date rest).result⟩) := by
  refine ⟨?_, ?_, ?_⟩
  · intro events hok
    induction events with
    | nil => simp [dispatcher_poll]
    | cons ev rest ih =>
      match ev with
      | AcceptEvent.accepted h s b hr c d =>
        have hr' := ih (fun x hx => hok x (List.mem_cons_of_mem _ hx))
        simp [dispatcher_poll, hr'.1, hr'.2]
      | AcceptEvent.acceptError e =>
        have := hok _ (List.mem_cons_self _ _)
        simp [AcceptEvent.isErr] at this
  · intro pre e post hok
    induction pre with
    | nil => simp [dispatcher_poll]
    | cons ev rest ih =>
      match ev with
      | AcceptEvent.accepted h s b hr c d =>
        have hr' := ih (fun x hx => hok x (List.mem_cons_of_mem _ hx))
        simp [dispatcher_poll, hr'.1, hr'.2]
      | AcceptEvent.acceptError e' =>
        have := hok _ (List.mem_cons_self _ _)
        simp [AcceptEvent.isErr] at this
  · intro h s b hr c d rest
    rfl

/-- C6 (witness): a stream whose body producer fails (error `7`) still
leaves the loop outcome successful. -/
theorem dispatcher_poll_isolation_witness :
    (dispatcher_poll (E := Nat) "D"
        [AcceptEvent.accepted ⟨200, []⟩ BodySize.stream [Except.error 7]
          Option.none [] []]).result = Except.ok () :=
  ((dispatcher_poll_isolation (E := Nat) "D").1
    [AcceptEvent.accepted ⟨200, []⟩ BodySize.stream [Except.error 7] Option.none [] []]
    (by decide)).1


/-! ## Concrete sanity checks of the embedding -/

example :
    prepare_response "D" ⟨200, [("x-a", "1"), ("content-length", "5")]⟩ (BodySize.sized 7) =
      (⟨200, HttpVersion.http2, [("content-length", "7"), ("x-a", "1"), ("date", "D")]⟩,
        BodySize.sized 7) := by decide

example :
    prepare_response "D" ⟨200, [("content-length", "5")]⟩ BodySize.stream =
      (⟨200, HttpVersion.http2, [("content-length", "5"), ("date", "D")]⟩,
        BodySize.stream) := by decide

example :
    prepare_response "D" ⟨204, [("content-length", "5"), ("date", "E")]⟩ BodySize.stream =
      (⟨204, HttpVersion.http2, [("content-length", "5"), ("date", "E")]⟩,
        BodySize.none) := by decide

example :
    prepare_response "D" ⟨101, [("content-length", "5"), ("connection", "close")]⟩
        (BodySize.sized 3) =
      (⟨101, HttpVersion.http2, [("date", "D")]⟩, BodySize.stream) := by decide

example :
    (sendLoop [1, 2] [CapPoll.granted 1, CapPoll.granted 5] []).frames =
      [([1], false), ([2], false)] := by decide

example :
    (sendLoop [1, 2] [CapPoll.granted 1, CapPoll.granted 5] []).reservations =
      [2, 1] := by decide

example :
    (respBody (E := Nat) [Except.ok [7]] [CapPoll.granted 9] []) =
      ⟨[1], [([7], false), ([], true)], 2, false, H2Result.ok⟩ := by decide

example :
    (respBody (E := Nat) [Except.ok [7], Except.error 3] [CapPoll.granted 9] []) =
      ⟨[1], [([7], false)], 2, false,
        H2Result.err (DispatchError.responseBody 3)⟩ := by decide

example :
    (respBody (E := Nat) [Except.ok [7, 8]] [CapPoll.granted 9, CapPoll.closed] []) =
      ⟨[2], [([7, 8], false), ([], true)], 2, false, H2Result.ok⟩ := by decide

example :
    (respBody (E := Nat) [Except.ok [7, 8]] [CapPoll.closed] []) =
      ⟨[2], [], 1, true, H2Result.ok⟩ := by decide

example :
    bodyStreamDrain (E := Nat)
        [Except.ok [1], Except.ok [], Except.ok [2], Except.error 5, Except.ok []] =
      [Except.ok [1], Except.ok [2], Except.error 5] := by
  simp [bodyStreamDrain, bodyStreamPollNext]

end ActixH2
